import Mathlib

/-!
Shallow embedding of the `web-service-stdlib` album HTTP service
(the richer variant in `main.go`: structured JSON error envelopes).

The Go program is embedded as follows:
* `Album` mirrors the `Album` struct (prices are `Int`, Go `int`).
* The in-memory store `MemoryDatabase` (a `map[string]Album` guarded by a
  lock) is embedded as an association list `AlbumsMap`; the lock itself has
  no sequential content.  Go map iteration order is arbitrary, so
  `GetAlbums` is modelled by sorting the values (the code sorts with
  `sort.Slice` by ID, which on distinct keys determines the result
  uniquely); layout-independence is then a theorem, not an assumption.
* JSON documents are modelled by the inductive `Json` (numbers restricted
  to integers, which covers every number this service reads or writes).
* `encoding/json` marshalling of the involved Go values is embedded by
  explicit encoders (`encodeAlbum`, `errorEnvelope`, ...), including the
  `omitempty` behaviour and the fact that Go marshals maps with sorted
  keys; `json.Unmarshal` into `Album` is embedded by `decodeAlbum`
  (missing fields keep their zero value, `null` is a no-op, unknown
  fields are ignored, type mismatches are errors).
* An HTTP exchange is a pure function from a `Request` (method, path,
  body read outcome) and a database state to a `Response` (status,
  `Content-Type` and `Allow` headers, JSON body) and a new state.
-/

namespace WebServiceStdlib

/-- JSON values (numbers restricted to integers, which is all this
service produces or consumes). -/
inductive Json where
  | null : Json
  | bool (b : Bool) : Json
  | num (n : Int) : Json
  | str (s : String) : Json
  | arr (elems : List Json) : Json
  | obj (fields : List (String × Json)) : Json

/-- First-match lookup in an association list with string keys (models
both Go map indexing and field lookup in a marshalled JSON object). -/
def lookupKey {α : Type} : List (String × α) → String → Option α
  | [], _ => none
  | (k, v) :: rest, key => if k = key then some v else lookupKey rest key

/-- `Album` struct: ID, Title, Artist (strings) and Price (Go `int`,
cents). -/
structure Album where
  id : String
  title : String
  artist : String
  price : Int
deriving DecidableEq, Repr

/-- The zero value of the `Album` struct (what `var album Album`
declares before unmarshalling). -/
def albumZero : Album := ⟨"", "", "", 0⟩

/-- Database errors: `ErrDoesNotExist`, `ErrAlreadyExists`, and any
other error an alternate backend might return. -/
inductive DbError where
  | doesNotExist : DbError
  | alreadyExists : DbError
  | other (msg : String) : DbError
deriving DecidableEq, Repr

/-- The backing store of `MemoryDatabase`: `map[string]Album`, embedded
as an association list from ID to album. -/
abbrev AlbumsMap := List (String × Album)

/-- Sort order used by `GetAlbums` (`albums[i].ID < albums[j].ID`). -/
def byID (a b : Album) : Prop := a.id ≤ b.id

instance : DecidableRel byID := fun a b => inferInstanceAs (Decidable (a.id ≤ b.id))

instance : IsTotal Album byID := ⟨fun a b => le_total a.id b.id⟩

instance : IsTrans Album byID := ⟨fun _ _ _ h h' => le_trans h h'⟩

namespace MemoryDatabase

/-- `MemoryDatabase.GetAlbums`: copy all map values into a slice and
sort them ascending by ID. -/
def GetAlbums (d : AlbumsMap) : Except DbError (List Album) :=
  .ok (List.insertionSort byID (d.map Prod.snd))

/-- `MemoryDatabase.GetAlbumByID`: map lookup; absent gives
`ErrDoesNotExist`. -/
def GetAlbumByID (d : AlbumsMap) (id : String) : Except DbError Album :=
  match lookupKey d id with
  | some album => .ok album
  | none => .error .doesNotExist

/-- `MemoryDatabase.AddAlbum`: fail with `ErrAlreadyExists` when the ID
is present, otherwise store the album under its ID.  The second
component is the store after the call. -/
def AddAlbum (d : AlbumsMap) (album : Album) : Except DbError Unit × AlbumsMap :=
  match lookupKey d album.id with
  | some _ => (.error .alreadyExists, d)
  | none => (.ok (), d ++ [(album.id, album)])

end MemoryDatabase

/-- The `Database` interface used by the server, over an abstract state
type `σ` (state-passing version of the mutating Go methods). -/
structure Database (σ : Type) where
  GetAlbums : σ → Except DbError (List Album)
  GetAlbumByID : σ → String → Except DbError Album
  AddAlbum : σ → Album → Except DbError Unit × σ

/-- The `MemoryDatabase` implementation of `Database`. -/
def memoryDatabase : Database AlbumsMap :=
  ⟨MemoryDatabase.GetAlbums, MemoryDatabase.GetAlbumByID, MemoryDatabase.AddAlbum⟩

/-- Marshalling of an `Album` (struct field order; `price` carries
`omitempty`, so a zero price is omitted from the wire form). -/
def encodeAlbum (a : Album) : Json :=
  .obj ([("id", .str a.id), ("title", .str a.title), ("artist", .str a.artist)] ++
    (if a.price = 0 then [] else [("price", .num a.price)]))

/-- The `validationIssue` struct of `Server.addAlbum`. -/
structure ValidationIssue where
  error : String
  message : String
deriving DecidableEq, Repr

/-- Marshalling of a `validationIssue` (`message` has `omitempty`). -/
def encodeIssue (i : ValidationIssue) : Json :=
  .obj ([("error", .str i.error)] ++ (if i.message = "" then [] else [("message", .str i.message)]))

/-- Key order used when Go marshals a `map[string]interface{}`:
`encoding/json` writes map entries sorted by key. -/
def mapKeyLE (p q : String × Json) : Prop := p.1 ≤ q.1

instance : DecidableRel mapKeyLE := fun p q => inferInstanceAs (Decidable (p.1 ≤ q.1))

/-- Marshalling of a `map[string]interface{}` whose values are already
marshalled: a JSON object with keys in sorted order. -/
def marshalMap (data : List (String × Json)) : Json :=
  .obj (List.insertionSort mapKeyLE data)

/-- The response struct of `Server.jsonError`: `status`, `error`, and
`data` with `omitempty` (a `nil` or empty map is omitted entirely). -/
def errorEnvelope (status : Nat) (error : String) (data : List (String × Json)) : Json :=
  .obj ([("status", .num status), ("error", .str error)] ++
    (if data.isEmpty then [] else [("data", marshalMap data)]))

/-- What the server hands back to the transport: status code, the
`Content-Type` and `Allow` headers it set, and the JSON body. -/
structure Response where
  status : Nat
  contentType : Option String
  allow : Option String
  body : Json

/-- Error-kind constants. -/
def ErrorAlreadyExists : String := "already-exists"

def ErrorDatabase : String := "database"

def ErrorInternal : String := "internal"

def ErrorMalformedJSON : String := "malformed-json"

def ErrorMethodNotAllowed : String := "method-not-allowed"

def ErrorNotFound : String := "not-found"

def ErrorValidation : String := "validation"

namespace Server

/-- `Server.writeJSON`: set `Content-Type: application/json;
charset=utf-8` and write the marshalled value.  (Marshalling of the
values this server writes cannot fail, so the marshal-error branch of
the Go code is unreachable and not modelled.) -/
def writeJSON (status : Nat) (v : Json) : Response :=
  { status := status
    contentType := some "application/json; charset=utf-8"
    allow := none
    body := v }

/-- `Server.jsonError`: write the structured error envelope, with the
HTTP status repeated inside the body. -/
def jsonError (status : Nat) (error : String) (data : List (String × Json)) : Response :=
  writeJSON status (errorEnvelope status error data)

end Server

/-- Outcome of reading a request body: `io.ReadAll` failed, the bytes
were not parseable JSON (with the parser's diagnostic), or a parsed
JSON document. -/
inductive Body where
  | ioError : Body
  | malformed (msg : String) : Body
  | json (j : Json) : Body

/-- `strings.EqualFold` as `encoding/json` uses it to match an incoming
object key against struct field/tag names, modelled by lowercasing
(which agrees with Unicode case folding on the ASCII tag names of
`Album`).  Go prefers an exact match and falls back to a
case-insensitive one; the four tag names here are pairwise distinct
even case-insensitively, so folded comparison alone is equivalent. -/
def eqFold (a b : String) : Bool :=
  a.data.map Char.toLower == b.data.map Char.toLower

/-- One step of `json.Unmarshal` into the `Album` struct: assign a
decoded field.  Keys are matched case-insensitively against the tag
names, as `encoding/json` does; unknown keys are ignored; JSON `null`
is a no-op; a value of the wrong type is an error. -/
def setField (a : Album) (k : String) (v : Json) : Except String Album :=
  if eqFold k "id" then
    match v with
    | .str s => .ok { a with id := s }
    | .null => .ok a
    | _ => .error "json: cannot unmarshal value into Go struct field Album.id of type string"
  else if eqFold k "title" then
    match v with
    | .str s => .ok { a with title := s }
    | .null => .ok a
    | _ => .error "json: cannot unmarshal value into Go struct field Album.title of type string"
  else if eqFold k "artist" then
    match v with
    | .str s => .ok { a with artist := s }
    | .null => .ok a
    | _ => .error "json: cannot unmarshal value into Go struct field Album.artist of type string"
  else if eqFold k "price" then
    match v with
    | .num n => .ok { a with price := n }
    | .null => .ok a
    | _ => .error "json: cannot unmarshal value into Go struct field Album.price of type int"
  else .ok a

/-- `json.Unmarshal` of a JSON document into `var album Album`: fields
start at their zero values and present keys are assigned in order
(later duplicates win, as in Go). -/
def decodeAlbum : Json → Except String Album
  | .obj fields => fields.foldlM (fun a kv => setField a kv.1 kv.2) albumZero
  | .null => .ok albumZero
  | _ => .error "json: cannot unmarshal value into Go value of type main.Album"

namespace Server

/-- `Server.readJSON`: a body-read failure is a 500 `internal` error; an
unmarshalling failure is a 400 `malformed-json` error carrying the
parser's message as structured data; otherwise the decoded album. -/
def readJSON (b : Body) : Except Response Album :=
  match b with
  | .ioError => .error (jsonError 500 ErrorInternal [])
  | .malformed msg => .error (jsonError 400 ErrorMalformedJSON [("message", .str msg)])
  | .json j =>
    match decodeAlbum j with
    | .error msg => .error (jsonError 400 ErrorMalformedJSON [("message", .str msg)])
    | .ok album => .ok album

end Server

/-- The validation block of `Server.addAlbum`: build the map of
validation issues (modelled in check order; the map itself is
unordered and is sorted at marshal time). -/
def validateAlbum (album : Album) : List (String × ValidationIssue) :=
  (if album.id = "" then [("id", ⟨"required", ""⟩)] else []) ++
  (if album.title = "" then [("title", ⟨"required", ""⟩)] else []) ++
  (if album.artist = "" then [("artist", ⟨"required", ""⟩)] else []) ++
  (if album.price < 0 ∨ 100000 ≤ album.price then
    [("price", ⟨"out-of-range", "price must be between 0 and $1000"⟩)] else [])

namespace Server

/-- `Server.getAlbums`: list the store; a store failure is a 500
`database` error. -/
def getAlbums {σ : Type} (db : Database σ) (s : σ) : Response :=
  match db.GetAlbums s with
  | .error _ => jsonError 500 ErrorDatabase []
  | .ok albums => writeJSON 200 (.arr (albums.map encodeAlbum))

/-- `Server.addAlbum`: read and decode the body, validate, then insert;
`ErrAlreadyExists` maps to 409, any other insert failure to 500, and
success echoes the created album with 201. -/
def addAlbum {σ : Type} (db : Database σ) (s : σ) (b : Body) : Response × σ :=
  match Server.readJSON b with
  | .error resp => (resp, s)
  | .ok album =>
    let issues := validateAlbum album
    if issues.isEmpty then
      match db.AddAlbum s album with
      | (.error .alreadyExists, s') => (jsonError 409 ErrorAlreadyExists [], s')
      | (.error _, s') => (jsonError 500 ErrorDatabase [], s')
      | (.ok _, s') => (writeJSON 201 (encodeAlbum album), s')
    else
      (jsonError 400 ErrorValidation (issues.map fun p => (p.1, encodeIssue p.2)), s)

/-- `Server.getAlbumByID`: `ErrDoesNotExist` maps to 404, any other
store failure to 500, success to 200 with the album. -/
def getAlbumByID {σ : Type} (db : Database σ) (s : σ) (id : String) : Response :=
  match db.GetAlbumByID s id with
  | .error .doesNotExist => jsonError 404 ErrorNotFound []
  | .error _ => jsonError 500 ErrorDatabase []
  | .ok album => writeJSON 200 (encodeAlbum album)

end Server

/-- The regexp `^/albums/([^/]+)$` of the `match` helper: the path is
`/albums/` followed by one or more non-slash characters, which are
bound to the ID. -/
def matchAlbumsID (path : String) : Option String :=
  match path.data with
  | '/' :: 'a' :: 'l' :: 'b' :: 'u' :: 'm' :: 's' :: '/' :: rest =>
    if rest ≠ [] ∧ ¬ '/' ∈ rest then some (String.mk rest) else none
  | _ => none

/-- An inbound HTTP request as seen by the handler: method, URL path,
and the outcome of reading the body. -/
structure Request where
  method : String
  path : String
  body : Body

namespace Server

/-- `Server.ServeHTTP`: route on path then method; unknown paths give
404, known paths with an unsupported method give 405 with the `Allow`
header listing the supported methods. -/
def ServeHTTP {σ : Type} (db : Database σ) (s : σ) (r : Request) : Response × σ :=
  if r.path = "/albums" then
    match r.method with
    | "GET" => (getAlbums db s, s)
    | "POST" => addAlbum db s r.body
    | _ => ({ jsonError 405 ErrorMethodNotAllowed [] with allow := some "GET, POST" }, s)
  else
    match matchAlbumsID r.path with
    | some id =>
      match r.method with
      | "GET" => (getAlbumByID db s id, s)
      | _ => ({ jsonError 405 ErrorMethodNotAllowed [] with allow := some "GET" }, s)
    | none => (jsonError 404 ErrorNotFound [], s)

end Server

/-- Invariant of every reachable `MemoryDatabase` state: map keys are
unique (Go map semantics) and each album is stored under its own ID
(`d.albums[album.ID] = album` in `AddAlbum`). -/
def StoreWF (d : AlbumsMap) : Prop :=
  (d.map Prod.fst).Nodup ∧ ∀ p ∈ d, p.1 = p.2.id

/-- A sequence of `AddAlbum` calls, stopping at the first failure. -/
def insertAll (albums : List Album) (d : AlbumsMap) : Option AlbumsMap :=
  match albums with
  | [] => some d
  | a :: rest =>
    match MemoryDatabase.AddAlbum d a with
    | (.ok _, d') => insertAll rest d'
    | (.error _, _) => none

/-- The `status` field of a response body, when the body is a JSON
object carrying one. -/
def bodyStatusField (resp : Response) : Option Json :=
  match resp.body with
  | .obj fields => lookupKey fields "status"
  | _ => none

/-- Seed album `a1` from `main`. -/
def albumA1 : Album := ⟨"a1", "9th Symphony", "Beethoven", 795⟩

/-- Seed album `a2` from `main`. -/
def albumA2 : Album := ⟨"a2", "Hey Jude", "The Beatles", 2000⟩

/-- The album of the worked example in the spec. -/
def albumA9 : Album := ⟨"a9", "Pianoman", "Billy Joel", 1234⟩


/-- Strict version of the listing order; antisymmetric because two
albums strictly ordered both ways cannot exist. -/
def ltByID (a b : Album) : Prop := a.id < b.id

instance : IsAntisymm Album ltByID := ⟨fun _ _ h h' => absurd h' (lt_asymm h)⟩

/-- The `{"error": "required"}` validation issue. -/
def requiredIssue : ValidationIssue := ⟨"required", ""⟩

/-- The out-of-range price validation issue. -/
def oorIssue : ValidationIssue := ⟨"out-of-range", "price must be between 0 and $1000"⟩

/-! ### Association-list lookup lemmas -/

theorem lookupKey_append_left {α : Type} {l₁ : List (String × α)} {k : String} {v : α}
    (h : lookupKey l₁ k = some v) (l₂ : List (String × α)) :
    lookupKey (l₁ ++ l₂) k = some v := by
  induction l₁ with
  | nil => simp [lookupKey] at h
  | cons p rest ih =>
    rw [lookupKey] at h
    rw [List.cons_append, lookupKey]
    by_cases hk : p.1 = k
    · rw [if_pos hk] at h ⊢; exact h
    · rw [if_neg hk] at h ⊢; exact ih h

theorem lookupKey_append_right {α : Type} {l₁ : List (String × α)} {k : String}
    (h : lookupKey l₁ k = none) (l₂ : List (String × α)) :
    lookupKey (l₁ ++ l₂) k = lookupKey l₂ k := by
  induction l₁ with
  | nil => rfl
  | cons p rest ih =>
    rw [lookupKey] at h
    rw [List.cons_append, lookupKey]
    by_cases hk : p.1 = k
    · rw [if_pos hk] at h; exact absurd h (by simp)
    · rw [if_neg hk] at h ⊢; exact ih h

theorem lookupKey_eq_none_iff {α : Type} (l : List (String × α)) (k : String) :
    lookupKey l k = none ↔ k ∉ l.map Prod.fst := by
  induction l with
  | nil => simp [lookupKey]
  | cons p rest ih =>
    rw [lookupKey]
    by_cases hk : p.1 = k
    · rw [if_pos hk]; simp [hk]
    · rw [if_neg hk, ih]
      simp only [List.map_cons, List.mem_cons, not_or]
      exact ⟨fun h => ⟨fun h1 => hk h1.symm, h⟩, fun h => h.2⟩

theorem lookupKey_singleton {α : Type} (k k' : String) (v : α) :
    lookupKey [(k, v)] k' = if k = k' then some v else none := rfl


theorem decodeAlbum_encodeAlbum (a : Album) : decodeAlbum (encodeAlbum a) = .ok a := by
  cases a with
  | mk i t r p =>
    by_cases hp : p = 0
    · subst hp
      simp only [encodeAlbum]
      rfl
    · simp only [encodeAlbum] at *
      rw [if_neg hp]
      rfl

theorem validateAlbum_eq_nil {a : Album} (hi : a.id ≠ "") (ht : a.title ≠ "")
    (ha : a.artist ≠ "") (hp0 : 0 ≤ a.price) (hp1 : a.price < 100000) :
    validateAlbum a = [] := by
  have hprice : ¬(a.price < 0 ∨ 100000 ≤ a.price) := by
    rintro (h | h) <;> omega
  unfold validateAlbum
  rw [if_neg hi, if_neg ht, if_neg ha, if_neg hprice]
  rfl

theorem albumsSlash_ne_albums (x : String) : "/albums/" ++ x ≠ "/albums" := by
  intro h
  have hlen := congrArg String.length h
  have h8 : ("/albums/" : String).length = 8 := rfl
  have h7 : ("/albums" : String).length = 7 := rfl
  rw [String.length_append, h8, h7] at hlen
  omega

theorem matchAlbumsID_eq_some_iff (p : String) (id : String) :
    matchAlbumsID p = some id ↔ id ≠ "" ∧ ¬ '/' ∈ id.data ∧ p = "/albums/" ++ id := by
  constructor
  · intro h
    unfold matchAlbumsID at h
    split at h
    case h_1 rest heq =>
      by_cases hc : rest ≠ [] ∧ ¬ '/' ∈ rest
      · rw [if_pos hc] at h
        obtain rfl : String.mk rest = id := Option.some.inj h
        refine ⟨fun hid => hc.1 ?_, hc.2, ?_⟩
        · exact congrArg String.data hid
        · apply String.ext
          rw [String.data_append, heq]
          rfl
      · rw [if_neg hc] at h
        exact absurd h (by simp)
    case h_2 => exact absurd h (by simp)
  · rintro ⟨hne, hslash, rfl⟩
    have hd : ("/albums/" ++ id).data =
        '/' :: 'a' :: 'l' :: 'b' :: 'u' :: 'm' :: 's' :: '/' :: id.data := by
      rw [String.data_append]
      rfl
    unfold matchAlbumsID
    rw [hd]
    have hid : id.data ≠ [] := fun h => hne (String.ext h)
    show (if id.data ≠ [] ∧ ¬ '/' ∈ id.data then some (String.mk id.data) else none) = some id
    rw [if_pos ⟨hid, hslash⟩]

/-! ### Claim theorems -/

/-- C1: inserting an entity whose ID already exists fails with
`ErrAlreadyExists` and leaves the store unchanged — the previously
stored entity for that ID remains exactly as it was — while inserting
an entity with a fresh ID succeeds, stores exactly that entity under
its ID, and changes no other key. -/
theorem C1_addAlbum_conflict_or_insert (d : AlbumsMap) (a b : Album) :
    (lookupKey d a.id = some b →
      MemoryDatabase.AddAlbum d a = (.error .alreadyExists, d) ∧
      lookupKey (MemoryDatabase.AddAlbum d a).2 a.id = some b) ∧
    (lookupKey d a.id = none →
      MemoryDatabase.AddAlbum d a = (.ok (), d ++ [(a.id, a)]) ∧
      lookupKey (MemoryDatabase.AddAlbum d a).2 a.id = some a ∧
      ∀ k, k ≠ a.id → lookupKey (MemoryDatabase.AddAlbum d a).2 k = lookupKey d k) := by
  constructor
  · intro h
    have e : MemoryDatabase.AddAlbum d a = (.error .alreadyExists, d) := by
      unfold MemoryDatabase.AddAlbum; rw [h]
    exact ⟨e, by rw [e]; exact h⟩
  · intro h
    have e : MemoryDatabase.AddAlbum d a = (.ok (), d ++ [(a.id, a)]) := by
      unfold MemoryDatabase.AddAlbum; rw [h]
    refine ⟨e, ?_, ?_⟩
    · rw [e, lookupKey_append_right h, lookupKey_singleton, if_pos rfl]
    · intro k hk
      rw [e]
      cases hc : lookupKey d k with
      | some v => exact lookupKey_append_left hc _
      | none =>
        rw [lookupKey_append_right hc, lookupKey_singleton,
          if_neg fun hh => hk hh.symm]

/-- Witness for C1 at concrete inputs: re-adding `a1` to a store
already holding it conflicts and leaves the store as it was; adding
`a2` to the empty store succeeds. -/
theorem C1_witness :
    lookupKey [("a1", albumA1)] albumA1.id = some albumA1 ∧
    MemoryDatabase.AddAlbum [("a1", albumA1)] albumA1 = (.error .alreadyExists, [("a1", albumA1)]) ∧
    lookupKey ([] : AlbumsMap) albumA2.id = none ∧
    MemoryDatabase.AddAlbum ([] : AlbumsMap) albumA2 = (.ok (), [("a2", albumA2)]) :=
  ⟨by decide,
   ((C1_addAlbum_conflict_or_insert [("a1", albumA1)] albumA1 albumA1).1 (by decide)).1,
   by decide,
   ((C1_addAlbum_conflict_or_insert [] albumA2 albumA2).2 (by decide)).1⟩

/-- C7: looking up an absent ID fails with `ErrDoesNotExist` (never a
default or empty album as success), and looking up a present ID
returns the stored album. -/
theorem C7_getAlbumByID_notFound_or_found (d : AlbumsMap) (id : String) (a : Album) :
    (lookupKey d id = none → MemoryDatabase.GetAlbumByID d id = .error .doesNotExist) ∧
    (lookupKey d id = some a → MemoryDatabase.GetAlbumByID d id = .ok a) := by
  constructor <;> intro h <;> unfold MemoryDatabase.GetAlbumByID <;> rw [h]

/-- Witness for C7 at concrete inputs: `a3` is absent from a store
holding only `a1`; `a1` is present. -/
theorem C7_witness :
    lookupKey [("a1", albumA1)] "a3" = none ∧
    MemoryDatabase.GetAlbumByID [("a1", albumA1)] "a3" = .error .doesNotExist ∧
    lookupKey [("a1", albumA1)] "a1" = some albumA1 ∧
    MemoryDatabase.GetAlbumByID [("a1", albumA1)] "a1" = .ok albumA1 :=
  ⟨by decide,
   (C7_getAlbumByID_notFound_or_found [("a1", albumA1)] "a3" albumA1).1 (by decide),
   by decide,
   (C7_getAlbumByID_notFound_or_found [("a1", albumA1)] "a1" albumA1).2 (by decide)⟩

theorem lookupKey_append_self (d : AlbumsMap) (a : Album) (h : lookupKey d a.id = none) :
    lookupKey (d ++ [(a.id, a)]) a.id = some a := by
  rw [lookupKey_append_right h, lookupKey_singleton, if_pos rfl]

theorem addAlbum_inserted {σ : Type} (db : Database σ) (s s' : σ) (a : Album) (j : Json)
    (hdec : decodeAlbum j = .ok a) (hval : validateAlbum a = [])
    (hdb : db.AddAlbum s a = (.ok (), s')) :
    Server.addAlbum db s (.json j) = (Server.writeJSON 201 (encodeAlbum a), s') := by
  simp only [Server.addAlbum, Server.readJSON, hdec, hval, List.isEmpty_nil, if_true, hdb]

theorem getAlbumByID_found {σ : Type} (db : Database σ) (s : σ) (id : String) (a : Album)
    (h : db.GetAlbumByID s id = .ok a) :
    Server.getAlbumByID db s id = Server.writeJSON 200 (encodeAlbum a) := by
  unfold Server.getAlbumByID
  rw [h]

theorem serve_item_get {σ : Type} (db : Database σ) (s : σ) (b : Body) (id : String)
    (hne : id ≠ "") (hslash : ¬ '/' ∈ id.data) :
    Server.ServeHTTP db s ⟨"GET", "/albums/" ++ id, b⟩ = (Server.getAlbumByID db s id, s) := by
  simp only [Server.ServeHTTP]
  rw [if_neg (albumsSlash_ne_albums id), (matchAlbumsID_eq_some_iff _ _).2 ⟨hne, hslash, rfl⟩]

/-- C2: inserting a fresh valid entity and then looking its ID up
returns exactly that entity, field for field; over HTTP, POSTing it to
`/albums` answers 201 echoing the entity and a subsequent GET of
`/albums/{id}` answers 200 with the same entity. -/
theorem C2_insert_then_get (d : AlbumsMap) (a : Album) (bGET : Body)
    (hfresh : lookupKey d a.id = none)
    (hi : a.id ≠ "") (ht : a.title ≠ "") (ha : a.artist ≠ "")
    (hp0 : 0 ≤ a.price) (hp1 : a.price < 100000)
    (hslash : ¬ '/' ∈ a.id.data) :
    MemoryDatabase.AddAlbum d a = (.ok (), d ++ [(a.id, a)]) ∧
    MemoryDatabase.GetAlbumByID (MemoryDatabase.AddAlbum d a).2 a.id = .ok a ∧
    Server.ServeHTTP memoryDatabase d ⟨"POST", "/albums", .json (encodeAlbum a)⟩ =
      (Server.writeJSON 201 (encodeAlbum a), d ++ [(a.id, a)]) ∧
    Server.ServeHTTP memoryDatabase (d ++ [(a.id, a)]) ⟨"GET", "/albums/" ++ a.id, bGET⟩ =
      (Server.writeJSON 200 (encodeAlbum a), d ++ [(a.id, a)]) := by
  have hadd : MemoryDatabase.AddAlbum d a = (.ok (), d ++ [(a.id, a)]) := by
    unfold MemoryDatabase.AddAlbum
    rw [hfresh]
  have hlook : lookupKey (d ++ [(a.id, a)]) a.id = some a := lookupKey_append_self d a hfresh
  have hget : MemoryDatabase.GetAlbumByID (d ++ [(a.id, a)]) a.id = .ok a := by
    unfold MemoryDatabase.GetAlbumByID
    rw [hlook]
  refine ⟨hadd, ?_, ?_, ?_⟩
  · rw [hadd]
    exact hget
  · have h1 : Server.ServeHTTP memoryDatabase d ⟨"POST", "/albums", .json (encodeAlbum a)⟩ =
        Server.addAlbum memoryDatabase d (.json (encodeAlbum a)) := rfl
    rw [h1]
    exact addAlbum_inserted memoryDatabase d _ a _ (decodeAlbum_encodeAlbum a)
      (validateAlbum_eq_nil hi ht ha hp0 hp1) hadd
  · rw [serve_item_get memoryDatabase _ bGET a.id hi hslash]
    rw [getAlbumByID_found memoryDatabase _ a.id a hget]

/-- Witness for C2 at the spec's worked example: POSTing album `a9` to
the seeded store returns 201 echoing it, and GETting `/albums/a9`
afterwards returns 200 with the same entity. -/
theorem C2_witness :
    lookupKey [("a1", albumA1), ("a2", albumA2)] albumA9.id = none ∧
    0 ≤ albumA9.price ∧ albumA9.price < 100000 ∧
    Server.ServeHTTP memoryDatabase [("a1", albumA1), ("a2", albumA2)]
        ⟨"POST", "/albums", .json (encodeAlbum albumA9)⟩ =
      (Server.writeJSON 201 (encodeAlbum albumA9),
        [("a1", albumA1), ("a2", albumA2), ("a9", albumA9)]) ∧
    Server.ServeHTTP memoryDatabase [("a1", albumA1), ("a2", albumA2), ("a9", albumA9)]
        ⟨"GET", "/albums/a9", .json .null⟩ =
      (Server.writeJSON 200 (encodeAlbum albumA9),
        [("a1", albumA1), ("a2", albumA2), ("a9", albumA9)]) := by
  have h := C2_insert_then_get [("a1", albumA1), ("a2", albumA2)] albumA9 (.json .null)
    (by decide) (by decide) (by decide) (by decide) (by decide) (by decide) (by decide)
  exact ⟨by decide, by decide, by decide, h.2.2.1, h.2.2.2⟩

theorem getAlbums_sorted_perm (d : AlbumsMap) (h : StoreWF d) :
    ∃ l, MemoryDatabase.GetAlbums d = .ok l ∧ l.Perm (d.map Prod.snd) ∧
      l.Pairwise ltByID := by
  refine ⟨_, rfl, List.perm_insertionSort byID _, ?_⟩
  have hs : List.Sorted byID (List.insertionSort byID (d.map Prod.snd)) :=
    List.sorted_insertionSort byID _
  have hids : ((d.map Prod.snd).map (fun x => x.id)).Nodup := by
    rw [List.map_map]
    have h1 : d.map ((fun x => x.id) ∘ Prod.snd) = d.map Prod.fst :=
      List.map_congr_left fun p hp => ((h.2 p hp).symm : p.2.id = p.1)
    rw [h1]
    exact h.1
  have hids' : ((List.insertionSort byID (d.map Prod.snd)).map (fun x => x.id)).Nodup :=
    (((List.perm_insertionSort byID _).map (fun x => x.id)).nodup_iff).2 hids
  have hne : (List.insertionSort byID (d.map Prod.snd)).Pairwise
      (fun a b => a.id ≠ b.id) := List.pairwise_map.mp hids'
  exact (hs.and hne).imp fun hab => lt_of_le_of_ne hab.1 hab.2

theorem storeWF_of_perm {d d' : AlbumsMap} (h : StoreWF d) (hp : d.Perm d') : StoreWF d' :=
  ⟨((hp.map Prod.fst).nodup_iff).1 h.1, fun p hmem => h.2 p (hp.mem_iff.2 hmem)⟩

theorem getAlbums_layout_indep (d d' : AlbumsMap) (h : StoreWF d) (hp : d.Perm d') :
    MemoryDatabase.GetAlbums d' = MemoryDatabase.GetAlbums d := by
  obtain ⟨l, hl, hlp, hlt⟩ := getAlbums_sorted_perm d h
  obtain ⟨l', hl', hlp', hlt'⟩ := getAlbums_sorted_perm d' (storeWF_of_perm h hp)
  have hperm : l'.Perm l := (hlp'.trans ((hp.map Prod.snd).symm)).trans hlp.symm
  rw [hl, hl', List.eq_of_perm_of_sorted hperm hlt' hlt]

theorem insertAll_eq (as : List Album) (d : AlbumsMap)
    (hdisj : ∀ a ∈ as, lookupKey d a.id = none)
    (hnodup : (as.map (fun x => x.id)).Nodup) :
    insertAll as d = some (d ++ as.map (fun a => (a.id, a))) := by
  induction as generalizing d with
  | nil => simp [insertAll]
  | cons a rest ih =>
    have hfresh := hdisj a (by simp)
    have hadd : MemoryDatabase.AddAlbum d a = (.ok (), d ++ [(a.id, a)]) := by
      unfold MemoryDatabase.AddAlbum
      rw [hfresh]
    rw [List.map_cons] at hnodup
    have hnd := List.nodup_cons.mp hnodup
    have hstep : insertAll rest (d ++ [(a.id, a)]) =
        some ((d ++ [(a.id, a)]) ++ rest.map (fun a => (a.id, a))) := by
      apply ih
      · intro b hb
        have hbd := hdisj b (List.mem_cons_of_mem a hb)
        have hba : b.id ≠ a.id := fun hbe => hnd.1 (hbe ▸ List.mem_map_of_mem (fun x => x.id) hb)
        rw [lookupKey_append_right hbd, lookupKey_singleton, if_neg fun hh => hba hh.symm]
      · exact hnd.2
    simp only [insertAll, hadd, hstep, List.append_assoc, List.singleton_append, List.map_cons]

theorem storeWF_map (as : List Album) (hnodup : (as.map (fun x => x.id)).Nodup) :
    StoreWF (as.map (fun a => (a.id, a))) := by
  constructor
  · rw [List.map_map]
    exact hnodup
  · intro p hp
    obtain ⟨a, _, rfl⟩ := List.mem_map.mp hp
    rfl

/-- C3: for every well-formed store state, listing returns every stored
entity exactly once in strictly ascending ID order, and the result is
the same for any permutation of the internal layout; moreover any two
insertion orders of the same distinct-ID entities both succeed and
produce identical listings, which enumerate exactly those entities. -/
theorem C3_getAlbums_sorted_layout_and_order_independent
    (d d' : AlbumsMap) (as as' : List Album)
    (hwf : StoreWF d) (hdd : d.Perm d')
    (hnodup : (as.map (fun x => x.id)).Nodup) (haa : as.Perm as') :
    (∃ l, MemoryDatabase.GetAlbums d = .ok l ∧ l.Perm (d.map Prod.snd) ∧
      l.Pairwise ltByID ∧ MemoryDatabase.GetAlbums d' = .ok l) ∧
    (∃ m m' l, insertAll as [] = some m ∧ insertAll as' [] = some m' ∧
      MemoryDatabase.GetAlbums m = .ok l ∧ MemoryDatabase.GetAlbums m' = .ok l ∧
      l.Perm as ∧ l.Pairwise ltByID) := by
  constructor
  · obtain ⟨l, hl, hlp, hlt⟩ := getAlbums_sorted_perm d hwf
    exact ⟨l, hl, hlp, hlt, by rw [getAlbums_layout_indep d d' hwf hdd, hl]⟩
  · have hnodup' : (as'.map (fun x => x.id)).Nodup :=
      ((haa.map (fun x => x.id)).nodup_iff).1 hnodup
    have hm := insertAll_eq as [] (fun a _ => rfl) hnodup
    have hm' := insertAll_eq as' [] (fun a _ => rfl) hnodup'
    rw [List.nil_append] at hm hm'
    have hwfm := storeWF_map as hnodup
    obtain ⟨l, hl, hlp, hlt⟩ := getAlbums_sorted_perm _ hwfm
    refine ⟨_, _, l, hm, hm', hl, ?_, ?_, hlt⟩
    · rw [getAlbums_layout_indep _ _ hwfm (haa.map (fun a => (a.id, a))), hl]
    · have hmm : (as.map (fun a => (a.id, a))).map Prod.snd = as := by
        rw [List.map_map, show (Prod.snd ∘ fun a : Album => (a.id, a)) = id from rfl]
        exact List.map_id as
      rw [hmm] at hlp
      exact hlp

/-- Witness for C3 at a concrete two-album store and its reversed
layout, and the two insertion orders of the same two albums. -/
theorem C3_witness :
    StoreWF [("a1", albumA1), ("a2", albumA2)] ∧
    List.Perm [("a1", albumA1), ("a2", albumA2)] [("a2", albumA2), ("a1", albumA1)] ∧
    (List.map (fun x => x.id) [albumA2, albumA1]).Nodup ∧
    List.Perm [albumA2, albumA1] [albumA1, albumA2] ∧
    ((∃ l, MemoryDatabase.GetAlbums [("a1", albumA1), ("a2", albumA2)] = .ok l ∧
        l.Perm ([("a1", albumA1), ("a2", albumA2)].map Prod.snd) ∧ l.Pairwise ltByID ∧
        MemoryDatabase.GetAlbums [("a2", albumA2), ("a1", albumA1)] = .ok l) ∧
      (∃ m m' l, insertAll [albumA2, albumA1] [] = some m ∧
        insertAll [albumA1, albumA2] [] = some m' ∧
        MemoryDatabase.GetAlbums m = .ok l ∧ MemoryDatabase.GetAlbums m' = .ok l ∧
        l.Perm [albumA2, albumA1] ∧ l.Pairwise ltByID)) :=
  ⟨⟨by decide, by decide⟩, by decide, by decide, by decide,
   C3_getAlbums_sorted_layout_and_order_independent _ _ _ _ ⟨by decide, by decide⟩
     (by decide) (by decide) (by decide)⟩

/-- C4: validation checks every field and accumulates all violations
into one map: `id`, `title`, `artist` are reported `required` exactly
when empty, `price` is reported `out-of-range` exactly when outside
[0, 100000), the handler returns them all in a single 400 `validation`
error, `{}` reports the three required fields, and `{"price": -1}`
additionally reports `price`. -/
theorem C4_validation_accumulated (a : Album) {σ : Type} (db : Database σ) (s : σ) (j : Json) :
    (("id", requiredIssue) ∈ validateAlbum a ↔ a.id = "") ∧
    (("title", requiredIssue) ∈ validateAlbum a ↔ a.title = "") ∧
    (("artist", requiredIssue) ∈ validateAlbum a ↔ a.artist = "") ∧
    (("price", oorIssue) ∈ validateAlbum a ↔ (a.price < 0 ∨ 100000 ≤ a.price)) ∧
    (decodeAlbum j = .ok a → validateAlbum a ≠ [] →
      Server.addAlbum db s (.json j) =
        (Server.jsonError 400 ErrorValidation
          ((validateAlbum a).map fun p => (p.1, encodeIssue p.2)), s)) ∧
    validateAlbum albumZero = [("id", requiredIssue), ("title", requiredIssue),
      ("artist", requiredIssue)] ∧
    decodeAlbum (.obj []) = .ok albumZero ∧
    decodeAlbum (.obj [("price", .num (-1))]) = .ok { albumZero with price := -1 } ∧
    validateAlbum { albumZero with price := -1 } = [("id", requiredIssue),
      ("title", requiredIssue), ("artist", requiredIssue), ("price", oorIssue)] := by
  refine ⟨?_, ?_, ?_, ?_, ?_, rfl, rfl, rfl, rfl⟩
  · unfold validateAlbum
    split_ifs <;> simp_all [requiredIssue, oorIssue]
  · unfold validateAlbum
    split_ifs <;> simp_all [requiredIssue, oorIssue]
  · unfold validateAlbum
    split_ifs <;> simp_all [requiredIssue, oorIssue]
  · unfold validateAlbum
    split_ifs <;> simp_all [requiredIssue, oorIssue]
  · intro hdec hne
    cases hl : validateAlbum a with
    | nil => exact absurd hl hne
    | cons x xs =>
      simp only [Server.addAlbum, Server.readJSON, hdec, hl, List.isEmpty_cons]
      rfl

/-- Witness for C4: submitting `{}` is rejected with one `validation`
error listing `id`, `title` and `artist`. -/
theorem C4_witness :
    decodeAlbum (.obj []) = .ok albumZero ∧
    validateAlbum albumZero ≠ [] ∧
    Server.addAlbum memoryDatabase ([] : AlbumsMap) (.json (.obj [])) =
      (Server.jsonError 400 ErrorValidation
        ((validateAlbum albumZero).map fun p => (p.1, encodeIssue p.2)), []) :=
  ⟨rfl, by decide,
   (C4_validation_accumulated albumZero memoryDatabase [] (.obj [])).2.2.2.2.1 rfl (by decide)⟩


/-- C5: routing follows the dispatch table — GET and POST on the exact
path `/albums` dispatch to list and create, any other method there is
405 with `Allow: GET, POST`; a path matching `/albums/{id}` (single
non-empty slash-free segment) dispatches GET to getByID and any other
method to 405 with `Allow: GET`; every other path (including
`/albums/` and extra segments) is 404.  The listing answers 200 and a
valid fresh create answers 201. -/
theorem C5_routing_dispatch {σ : Type} (db : Database σ) (s : σ) (r : Request)
    (m : AlbumsMap) (a : Album) :
    (r.path = "/albums" → r.method = "GET" →
      Server.ServeHTTP db s r = (Server.getAlbums db s, s)) ∧
    (r.path = "/albums" → r.method = "POST" →
      Server.ServeHTTP db s r = Server.addAlbum db s r.body) ∧
    (r.path = "/albums" → r.method ≠ "GET" → r.method ≠ "POST" →
      Server.ServeHTTP db s r =
        ({ Server.jsonError 405 ErrorMethodNotAllowed [] with allow := some "GET, POST" }, s)) ∧
    (∀ id, matchAlbumsID r.path = some id → r.method = "GET" →
      Server.ServeHTTP db s r = (Server.getAlbumByID db s id, s)) ∧
    (∀ id, matchAlbumsID r.path = some id → r.method ≠ "GET" →
      Server.ServeHTTP db s r =
        ({ Server.jsonError 405 ErrorMethodNotAllowed [] with allow := some "GET" }, s)) ∧
    (r.path ≠ "/albums" → matchAlbumsID r.path = none →
      Server.ServeHTTP db s r = (Server.jsonError 404 ErrorNotFound [], s)) ∧
    (∀ id, matchAlbumsID r.path = some id ↔
      id ≠ "" ∧ ¬ '/' ∈ id.data ∧ r.path = "/albums/" ++ id) ∧
    (Server.getAlbums memoryDatabase m).status = 200 ∧
    (lookupKey m a.id = none → validateAlbum a = [] →
      (Server.addAlbum memoryDatabase m (.json (encodeAlbum a))).1.status = 201) := by
  obtain ⟨mth, p, b⟩ := r
  refine ⟨?_, ?_, ?_, ?_, ?_, ?_, fun id => matchAlbumsID_eq_some_iff p id, rfl, ?_⟩
  · intro hp hm
    subst hp
    subst hm
    rfl
  · intro hp hm
    subst hp
    subst hm
    rfl
  · intro hp h1 h2
    subst hp
    simp only [Server.ServeHTTP]
    rw [if_pos trivial]
  · intro id hm hg
    subst hg
    by_cases hp : p = "/albums"
    · subst hp
      rw [show matchAlbumsID "/albums" = none from rfl] at hm
      cases hm
    · simp only [Server.ServeHTTP]
      rw [if_neg hp, hm]
  · intro id hm hg
    by_cases hp : p = "/albums"
    · subst hp
      rw [show matchAlbumsID "/albums" = none from rfl] at hm
      cases hm
    · simp only [Server.ServeHTTP]
      rw [if_neg hp, hm]
  · intro hp hn
    simp only [Server.ServeHTTP]
    rw [if_neg hp, hn]
  · intro h1 h2
    have hdb : memoryDatabase.AddAlbum m a = (.ok (), m ++ [(a.id, a)]) := by
      show MemoryDatabase.AddAlbum m a = _
      unfold MemoryDatabase.AddAlbum
      rw [h1]
    rw [addAlbum_inserted memoryDatabase m _ a _ (decodeAlbum_encodeAlbum a) h2 hdb]
    rfl

/-- Witness for C5: DELETE on `/albums` is 405 `Allow: GET, POST`,
PUT on `/albums/a1` is 405 `Allow: GET`, GET on `/albums/` is 404. -/
theorem C5_witness :
    ("DELETE" : String) ≠ "GET" ∧ ("DELETE" : String) ≠ "POST" ∧
    Server.ServeHTTP memoryDatabase ([] : AlbumsMap) ⟨"DELETE", "/albums", .json .null⟩ =
      ({ Server.jsonError 405 ErrorMethodNotAllowed [] with allow := some "GET, POST" }, []) ∧
    matchAlbumsID "/albums/a1" = some "a1" ∧
    Server.ServeHTTP memoryDatabase ([] : AlbumsMap) ⟨"PUT", "/albums/a1", .json .null⟩ =
      ({ Server.jsonError 405 ErrorMethodNotAllowed [] with allow := some "GET" }, []) ∧
    matchAlbumsID "/albums/" = none ∧
    Server.ServeHTTP memoryDatabase ([] : AlbumsMap) ⟨"GET", "/albums/", .json .null⟩ =
      (Server.jsonError 404 ErrorNotFound [], []) := by
  have h1 := C5_routing_dispatch memoryDatabase ([] : AlbumsMap)
    ⟨"DELETE", "/albums", .json .null⟩ [] albumA1
  have h2 := C5_routing_dispatch memoryDatabase ([] : AlbumsMap)
    ⟨"PUT", "/albums/a1", .json .null⟩ [] albumA1
  have h3 := C5_routing_dispatch memoryDatabase ([] : AlbumsMap)
    ⟨"GET", "/albums/", .json .null⟩ [] albumA1
  refine ⟨by decide, by decide, ?_, by decide, ?_, rfl, ?_⟩
  · exact h1.2.2.1 rfl (by decide) (by decide)
  · exact h2.2.2.2.2.1 "a1" (by decide) (by decide)
  · exact h3.2.2.2.2.2.1 (by decide) rfl

/-- C6: store-failure translation — on a validated create, `Conflict`
becomes 409 `already-exists`, any other store error becomes 500
`database`, success becomes 201 echoing the entity; on reads,
`NotFound` becomes 404 and other store errors 500 `database`; an I/O
failure reading the POST body is 500 `internal`, distinct from a
JSON-shape failure, which is 400 `malformed-json`. -/
theorem C6_error_translation {σ : Type} (db : Database σ) (s s' : σ) (a : Album) (j : Json)
    (msg : String) (id : String) (e : DbError) :
    (decodeAlbum j = .ok a → validateAlbum a = [] →
      db.AddAlbum s a = (.error .alreadyExists, s') →
      Server.addAlbum db s (.json j) = (Server.jsonError 409 ErrorAlreadyExists [], s')) ∧
    (decodeAlbum j = .ok a → validateAlbum a = [] →
      db.AddAlbum s a = (.error e, s') → e ≠ .alreadyExists →
      Server.addAlbum db s (.json j) = (Server.jsonError 500 ErrorDatabase [], s')) ∧
    (decodeAlbum j = .ok a → validateAlbum a = [] →
      db.AddAlbum s a = (.ok (), s') →
      Server.addAlbum db s (.json j) = (Server.writeJSON 201 (encodeAlbum a), s')) ∧
    (db.GetAlbumByID s id = .error .doesNotExist →
      Server.getAlbumByID db s id = Server.jsonError 404 ErrorNotFound []) ∧
    (db.GetAlbumByID s id = .error e → e ≠ .doesNotExist →
      Server.getAlbumByID db s id = Server.jsonError 500 ErrorDatabase []) ∧
    (db.GetAlbums s = .error e →
      Server.getAlbums db s = Server.jsonError 500 ErrorDatabase []) ∧
    Server.addAlbum db s .ioError = (Server.jsonError 500 ErrorInternal [], s) ∧
    Server.addAlbum db s (.malformed msg) =
      (Server.jsonError 400 ErrorMalformedJSON [("message", .str msg)], s) := by
  refine ⟨?_, ?_, ?_, ?_, ?_, ?_, rfl, rfl⟩
  · intro hdec hval hdb
    simp only [Server.addAlbum, Server.readJSON, hdec, hval, List.isEmpty_nil, if_true, hdb]
  · intro hdec hval hdb hne
    cases e with
    | alreadyExists => exact absurd rfl hne
    | doesNotExist =>
      simp only [Server.addAlbum, Server.readJSON, hdec, hval, List.isEmpty_nil, if_true, hdb]
    | other m =>
      simp only [Server.addAlbum, Server.readJSON, hdec, hval, List.isEmpty_nil, if_true, hdb]
  · intro hdec hval hdb
    exact addAlbum_inserted db s s' a j hdec hval hdb
  · intro h
    unfold Server.getAlbumByID
    rw [h]
  · intro h hne
    cases e with
    | doesNotExist => exact absurd rfl hne
    | alreadyExists =>
      unfold Server.getAlbumByID
      rw [h]
    | other m =>
      unfold Server.getAlbumByID
      rw [h]
  · intro h
    unfold Server.getAlbums
    rw [h]

/-- Witness for C6: re-POSTing the already stored album `a1` yields
409 `already-exists` with the store unchanged. -/
theorem C6_witness :
    decodeAlbum (encodeAlbum albumA1) = .ok albumA1 ∧
    validateAlbum albumA1 = [] ∧
    memoryDatabase.AddAlbum [("a1", albumA1)] albumA1 =
      (.error .alreadyExists, [("a1", albumA1)]) ∧
    Server.addAlbum memoryDatabase [("a1", albumA1)] (.json (encodeAlbum albumA1)) =
      (Server.jsonError 409 ErrorAlreadyExists [], [("a1", albumA1)]) :=
  ⟨rfl, by decide, rfl,
   (C6_error_translation memoryDatabase [("a1", albumA1)] [("a1", albumA1)] albumA1
      (encodeAlbum albumA1) "" "" .alreadyExists).1 rfl (by decide) rfl⟩


theorem getAlbums_contentType {σ : Type} (db : Database σ) (s : σ) :
    (Server.getAlbums db s).contentType = some "application/json; charset=utf-8" := by
  unfold Server.getAlbums
  cases hg : db.GetAlbums s with
  | error e => rfl
  | ok l => rfl

theorem getAlbumByID_contentType {σ : Type} (db : Database σ) (s : σ) (id : String) :
    (Server.getAlbumByID db s id).contentType = some "application/json; charset=utf-8" := by
  unfold Server.getAlbumByID
  cases hg : db.GetAlbumByID s id with
  | error e => cases e <;> rfl
  | ok a => rfl

theorem addAlbum_contentType {σ : Type} (db : Database σ) (s : σ) (b : Body) :
    (Server.addAlbum db s b).1.contentType = some "application/json; charset=utf-8" := by
  cases b with
  | ioError => rfl
  | malformed msg => rfl
  | json j =>
    cases hd : decodeAlbum j with
    | error msg =>
      simp only [Server.addAlbum, Server.readJSON, hd]
      rfl
    | ok a =>
      simp only [Server.addAlbum, Server.readJSON, hd]
      by_cases hv : (validateAlbum a).isEmpty = true
      · rw [if_pos hv]
        rcases h2 : db.AddAlbum s a with ⟨res, s2⟩
        cases res with
        | ok u => rfl
        | error e => cases e <;> rfl
      · rw [if_neg hv]
        rfl

/-- C8: every response on every code path carries
`Content-Type: application/json; charset=utf-8`, and an error envelope
with no structured data omits the `data` field entirely (no null or
empty placeholder). -/
theorem C8_content_type_and_data_omitted {σ : Type} (db : Database σ) (s : σ) (r : Request) :
    (Server.ServeHTTP db s r).1.contentType = some "application/json; charset=utf-8" ∧
    ∀ status kind, Server.jsonError status kind [] =
      Server.writeJSON status (.obj [("status", .num status), ("error", .str kind)]) := by
  refine ⟨?_, fun status kind => rfl⟩
  obtain ⟨mth, p, b⟩ := r
  by_cases hp : p = "/albums"
  · subst hp
    simp only [Server.ServeHTTP]
    rw [if_pos trivial]
    split
    · exact getAlbums_contentType db s
    · exact addAlbum_contentType db s b
    · rfl
  · by_cases hmth : mth = "GET"
    · subst hmth
      simp only [Server.ServeHTTP]
      rw [if_neg hp]
      cases hm : matchAlbumsID p with
      | none => rfl
      | some id => exact getAlbumByID_contentType db s id
    · simp only [Server.ServeHTTP]
      rw [if_neg hp]
      cases hm : matchAlbumsID p with
      | none => rfl
      | some id => rfl

theorem statusField_jsonError (st : Nat) (kind : String) (data : List (String × Json)) :
    bodyStatusField (Server.jsonError st kind data) = some (.num st) := rfl

theorem statusField_album (st : Nat) (a : Album) :
    bodyStatusField (Server.writeJSON st (encodeAlbum a)) = none := by
  unfold bodyStatusField Server.writeJSON encodeAlbum
  by_cases hp : a.price = 0
  · rw [if_pos hp]
    rfl
  · rw [if_neg hp]
    rfl

theorem statusConsistent_of_none {resp : Response} (jv : Json)
    (hnone : bodyStatusField resp = none) :
    bodyStatusField resp = some jv → jv = .num resp.status := by
  intro h
  rw [hnone] at h
  cases h

theorem getAlbums_statusConsistent {σ : Type} (db : Database σ) (s : σ) (jv : Json) :
    bodyStatusField (Server.getAlbums db s) = some jv →
    jv = .num (Server.getAlbums db s).status := by
  unfold Server.getAlbums
  cases hg : db.GetAlbums s with
  | error e => exact fun h => (Option.some.inj h).symm
  | ok l => exact fun h => by cases h

theorem getAlbumByID_statusConsistent {σ : Type} (db : Database σ) (s : σ) (id : String)
    (jv : Json) :
    bodyStatusField (Server.getAlbumByID db s id) = some jv →
    jv = .num (Server.getAlbumByID db s id).status := by
  unfold Server.getAlbumByID
  cases hg : db.GetAlbumByID s id with
  | error e => cases e <;> exact fun h => (Option.some.inj h).symm
  | ok a => exact statusConsistent_of_none jv (statusField_album 200 a)

theorem addAlbum_statusConsistent {σ : Type} (db : Database σ) (s : σ) (b : Body) (jv : Json) :
    bodyStatusField (Server.addAlbum db s b).1 = some jv →
    jv = .num (Server.addAlbum db s b).1.status := by
  cases b with
  | ioError => exact fun h => (Option.some.inj h).symm
  | malformed msg => exact fun h => (Option.some.inj h).symm
  | json j =>
    cases hd : decodeAlbum j with
    | error msg =>
      simp only [Server.addAlbum, Server.readJSON, hd]
      exact fun h => (Option.some.inj h).symm
    | ok a =>
      simp only [Server.addAlbum, Server.readJSON, hd]
      by_cases hv : (validateAlbum a).isEmpty = true
      · rw [if_pos hv]
        rcases h2 : db.AddAlbum s a with ⟨res, s2⟩
        cases res with
        | ok u => exact statusConsistent_of_none jv (statusField_album 201 a)
        | error e => cases e <;> exact fun h => (Option.some.inj h).symm
      · rw [if_neg hv]
        exact fun h => (Option.some.inj h).symm

/-- C10: whenever a response body is a JSON object carrying a `status`
field (as every `jsonError` envelope does), that field equals the HTTP
status code of the response itself, on every code path. -/
theorem C10_envelope_status_matches_http_status {σ : Type} (db : Database σ) (s : σ)
    (r : Request) (jv : Json) :
    bodyStatusField (Server.ServeHTTP db s r).1 = some jv →
    jv = .num ((Server.ServeHTTP db s r).1.status) := by
  obtain ⟨mth, p, b⟩ := r
  by_cases hp : p = "/albums"
  · subst hp
    by_cases hg : mth = "GET"
    · subst hg
      exact getAlbums_statusConsistent db s jv
    · by_cases hpo : mth = "POST"
      · subst hpo
        exact addAlbum_statusConsistent db s b jv
      · simp only [Server.ServeHTTP]
        rw [if_pos trivial]
        exact fun h => (Option.some.inj h).symm
  · by_cases hg : mth = "GET"
    · subst hg
      simp only [Server.ServeHTTP]
      rw [if_neg hp]
      cases hm : matchAlbumsID p with
      | none => exact fun h => (Option.some.inj h).symm
      | some id => exact getAlbumByID_statusConsistent db s id jv
    · simp only [Server.ServeHTTP]
      rw [if_neg hp]
      cases hm : matchAlbumsID p with
      | none => exact fun h => (Option.some.inj h).symm
      | some id => exact fun h => (Option.some.inj h).symm

/-- Witness for C10: the 405 envelope for DELETE on `/albums` carries
`"status": 405` in its body, matching the response status. -/
theorem C10_witness :
    bodyStatusField (Server.ServeHTTP memoryDatabase ([] : AlbumsMap)
        ⟨"DELETE", "/albums", .json .null⟩).1 = some (.num 405) ∧
    Json.num 405 = .num ((Server.ServeHTTP memoryDatabase ([] : AlbumsMap)
        ⟨"DELETE", "/albums", .json .null⟩).1.status) :=
  ⟨rfl, C10_envelope_status_matches_http_status memoryDatabase [] ⟨"DELETE", "/albums", .json .null⟩
    (.num 405) rfl⟩


theorem setField_price_of_ne {a b : Album} {k : String} {v : Json}
    (hk : eqFold k "price" = false)
    (h : setField a k v = .ok b) : b.price = a.price := by
  unfold setField at h
  split_ifs at h <;> cases v <;> simp_all <;> rw [← h]

theorem foldl_setField_price (fields : List (String × Json)) (a0 a : Album)
    (h : List.foldlM (fun a kv => setField a kv.1 kv.2) a0 fields = .ok a)
    (hp : ∀ k ∈ fields.map Prod.fst, eqFold k "price" = false) : a.price = a0.price := by
  induction fields generalizing a0 with
  | nil =>
    cases h
    rfl
  | cons kv rest ih =>
    rw [List.foldlM_cons] at h
    cases hs : setField a0 kv.1 kv.2 with
    | error e =>
      rw [hs] at h
      cases h
    | ok a1 =>
      rw [hs] at h
      have hk : eqFold kv.1 "price" = false := hp kv.1 (by simp)
      have h1 : a1.price = a0.price := setField_price_of_ne hk hs
      have h2 : a.price = a1.price := ih a1 h fun k hmem => hp k (by simp [hmem])
      rw [h2, h1]

/-- The fixed decoder binds case-variant keys the way `encoding/json`
does: a `"Price"` key sets the `price` field. -/
theorem decodeAlbum_case_insensitive_price :
    decodeAlbum (.obj [("id", .str "x"), ("title", .str "t"), ("artist", .str "r"),
      ("Price", .num 7)]) = .ok ⟨"x", "t", "r", 7⟩ := rfl
/-- C9: a create payload that supplies non-empty `id`, `title`,
`artist` and omits the price field entirely — no key binds `price`,
where keys bind case-insensitively as in `encoding/json` — decodes
with price 0, which passes the range check, so the create succeeds
with 201 and stores the entity with price 0 — `price` is optional on
the wire. -/
theorem C9_price_optional_defaults_zero (fields : List (String × Json)) (a : Album)
    (i t r : String) (s : AlbumsMap)
    (hdec : decodeAlbum (.obj fields) = .ok a)
    (hnp : ∀ k ∈ fields.map Prod.fst, eqFold k "price" = false)
    (hi : i ≠ "") (ht : t ≠ "") (hr : r ≠ "") (hfresh : lookupKey s i = none) :
    a.price = 0 ∧
    Server.addAlbum memoryDatabase s
        (.json (.obj [("id", .str i), ("title", .str t), ("artist", .str r)])) =
      (Server.writeJSON 201 (encodeAlbum ⟨i, t, r, 0⟩), s ++ [(i, ⟨i, t, r, 0⟩)]) := by
  constructor
  · exact foldl_setField_price fields albumZero a hdec hnp
  · have hdec2 : decodeAlbum (.obj [("id", .str i), ("title", .str t), ("artist", .str r)]) =
        .ok ⟨i, t, r, 0⟩ := rfl
    have hval : validateAlbum ⟨i, t, r, 0⟩ = [] :=
      validateAlbum_eq_nil hi ht hr (show (0 : Int) ≤ 0 by decide) (show (0 : Int) < 100000 by decide)
    have hdb : memoryDatabase.AddAlbum s ⟨i, t, r, 0⟩ = (.ok (), s ++ [(i, ⟨i, t, r, 0⟩)]) := by
      show MemoryDatabase.AddAlbum s ⟨i, t, r, 0⟩ = _
      unfold MemoryDatabase.AddAlbum
      rw [show lookupKey s (Album.mk i t r 0).id = none from hfresh]
    exact addAlbum_inserted memoryDatabase s _ ⟨i, t, r, 0⟩ _ hdec2 hval hdb

/-- Witness for C9: POSTing `{"id":"a7","title":"T","artist":"R"}` (no
price) to an empty store succeeds with 201 and stores price 0. -/
theorem C9_witness :
    decodeAlbum (.obj [("id", .str "a7"), ("title", .str "T"), ("artist", .str "R")]) =
      .ok ⟨"a7", "T", "R", 0⟩ ∧
    (∀ k ∈ ([("id", Json.str "a7"), ("title", Json.str "T"),
      ("artist", Json.str "R")].map Prod.fst), eqFold k "price" = false) ∧
    (⟨"a7", "T", "R", 0⟩ : Album).price = 0 ∧
    Server.addAlbum memoryDatabase ([] : AlbumsMap)
        (.json (.obj [("id", .str "a7"), ("title", .str "T"), ("artist", .str "R")])) =
      (Server.writeJSON 201 (encodeAlbum ⟨"a7", "T", "R", 0⟩),
        [("a7", ⟨"a7", "T", "R", 0⟩)]) := by
  have h := C9_price_optional_defaults_zero
    [("id", Json.str "a7"), ("title", Json.str "T"), ("artist", Json.str "R")]
    ⟨"a7", "T", "R", 0⟩ "a7" "T" "R" [] rfl (by decide) (by decide) (by decide) (by decide) rfl
  exact ⟨rfl, by decide, h.1, h.2⟩


end WebServiceStdlib
